import Mathlib

/-
Shallow embedding of the aurora terminal-logging package (aurora.go).

Modelling conventions:
* Go `LogLevel` is an `int`; we embed it as `Int`.
* The two package-level registries (`symbols`, `colors`) are Go maps with
  zero-value lookup semantics; we embed them as `LogLevel → Option _` and a
  lookup `m[k]` as `(m k).getD zero` for strings, while a missing color entry
  stays `none` (a nil `*color.Color`), on which `Fprint` nil-dereferences.
* A Notifier's sink (`output`) and mutex (`mu`) are folded into an explicit
  state `St` (`out : String`, `locked : Bool`); we model a single Notifier
  family (one shared sink and one shared mutex), which is all the claims need.
* `color.Color.Fprint` is modelled with colour output globally disabled
  (`color.NoColor`): it writes the string verbatim.  With a nil receiver it
  panics (fatih/color dereferences `c.noColor` in `isNoColorSet`).
* `time.Now().Format(...)` is modelled by the state field `now`.
* Every operation returns a `Res`: normal completion, a Go panic carrying its
  message, or a deadlock (a goroutine blocking forever on a mutex it already
  holds).  Deferred `mu.Unlock()` runs during panic unwinding, so panicking
  operations leave the lock released.
-/

/-- Go `LogLevel int`. -/
abbrev LogLevel := Int

def DebugLevel : LogLevel := 0
def InfoLevel : LogLevel := 1
def NoticeLevel : LogLevel := 2
def WarnLevel : LogLevel := 3
def ErrorLevel : LogLevel := 4
def AlertLevel : LogLevel := 5
def CriticalLevel : LogLevel := 6
def NoLevel : LogLevel := 7

/-- `IconSuccess = "✓"` (aurora.go line 21). -/
def IconSuccess : String := "✓"

/-- `IconError = "✗"` (aurora.go line 22). -/
def IconError : String := "✗"

/-- `IndentNone = ""` (aurora.go line 30). -/
def IndentNone : String := ""

/-- `IndentSpace2 = "  "` (aurora.go line 39). -/
def IndentSpace2 : String := "  "

/-- A `*color.Color` value: a set of SGR attribute codes (fatih/color). -/
structure Color where
  attrs : List Nat
deriving DecidableEq, Repr

def FgHiBlack : Nat := 90
def FgHiRed : Nat := 91
def FgHiGreen : Nat := 92
def FgHiYellow : Nat := 93
def FgHiBlue : Nat := 94
def FgHiMagenta : Nat := 95
def FgHiCyan : Nat := 96
def FgHiWhite : Nat := 97

/-- A Go value passed through `...any` (the shapes the repository exercises:
strings, ints, flat `map[string]string` values for JSON, and `chanv`, an
unencodable value such as a channel). -/
inductive GoVal where
  | str : String → GoVal
  | int : Int → GoVal
  | jmap : List (String × String) → GoVal
  | chanv : GoVal
deriving DecidableEq, Repr

/-- Rendering of one `fmt` verb applied to one argument, as Go's `fmt`
package does for the verbs the repository uses (`%s`, `%d`, `%v`); a
mismatched verb renders Go's `%!verb(type=value)` diagnostic. -/
def verbRender (c : Char) (v : GoVal) : String :=
  match v with
  | .str s =>
    match c with
    | 's' => s
    | 'v' => s
    | _ => "%!" ++ String.singleton c ++ "(string=" ++ s ++ ")"
  | .int i =>
    match c with
    | 'd' => toString i
    | 'v' => toString i
    | _ => "%!" ++ String.singleton c ++ "(int=" ++ toString i ++ ")"
  | .jmap _ => "%!" ++ String.singleton c ++ "(map)"
  | .chanv => "%!" ++ String.singleton c ++ "(chan)"

/-- Rendering of one leftover argument in Go's `%!(EXTRA ...)` diagnostic. -/
def extraRender : GoVal → String
  | .str s => "string=" ++ s
  | .int i => "int=" ++ toString i
  | .jmap _ => "map"
  | .chanv => "chan"

/-- Core of the `fmt.Sprintf` model: scans the format characters, consuming
one argument per verb; `%%` is a literal percent, a trailing `%` renders
`%!(NOVERB)`, a verb with no argument renders `%!v(MISSING)`, and leftover
arguments are appended as `%!(EXTRA ...)`, as Go's `fmt` does. -/
def sprintfAux : List Char → List GoVal → String
  | [], [] => ""
  | [], v :: vs => "%!(EXTRA " ++ String.intercalate ", " ((v :: vs).map extraRender) ++ ")"
  | ['%'], vs => "%!(NOVERB)" ++ sprintfAux [] vs
  | '%' :: '%' :: rest, vs => "%" ++ sprintfAux rest vs
  | '%' :: c :: rest, [] => "%!" ++ String.singleton c ++ "(MISSING)" ++ sprintfAux rest []
  | '%' :: c :: rest, v :: vs => verbRender c v ++ sprintfAux rest vs
  | c :: rest, vs => String.singleton c ++ sprintfAux rest vs

/-- Model of `fmt.Sprintf(format, args...)`. -/
def sprintf (format : String) (args : List GoVal) : String :=
  sprintfAux format.toList args

/-- Model of `fmt.Sprint` on a single operand. -/
def goSprint : GoVal → String
  | .str s => s
  | .int i => toString i
  | .jmap _ => "map"
  | .chanv => "chan"

/-- The explicit state threaded through every operation: the two registries,
the bytes written to the Notifier family's sink, whether the family's mutex
`n.mu` is held, and the current formatted timestamp. -/
structure St where
  symbols : LogLevel → Option String
  colors : LogLevel → Option Color
  out : String
  locked : Bool
  now : String

/-- Outcome of running one operation: normal return, Go panic (with its
message), or deadlock (blocking forever on an already-held mutex). -/
inductive Res where
  | ok : St → Res
  | panicked : String → St → Res
  | deadlock : St → Res

def Res.andThen (r : Res) (k : St → Res) : Res :=
  match r with
  | .ok st => k st
  | r => r

def Res.isOk : Res → Bool
  | .ok _ => true
  | _ => false

def Res.isPanicked : Res → Bool
  | .panicked _ _ => true
  | _ => false

def Res.isDeadlock : Res → Bool
  | .deadlock _ => true
  | _ => false

/-- The sink contents on normal completion. -/
def Res.finalOut : Res → Option String
  | .ok st => some st.out
  | _ => none

/-- The panic message, when the operation panicked. -/
def Res.panicMsg : Res → Option String
  | .panicked m _ => some m
  | _ => none

/-- The sink contents at the moment of the panic. -/
def Res.panicOut : Res → Option String
  | .panicked _ st => some st.out
  | _ => none

/-- The sink contents regardless of how the operation ended. -/
def Res.outAny : Res → String
  | .ok st => st.out
  | .panicked _ st => st.out
  | .deadlock st => st.out

/-- The Go panic message of a nil `*color.Color` method call. -/
def nilDeref : String := "runtime error: invalid memory address or nil pointer dereference"

/-- `defaultSymbols` (aurora.go lines 72-81). -/
def defaultSymbols (l : LogLevel) : Option String :=
  if l = AlertLevel then some "[✭]"
  else if l = InfoLevel then some "[✔]"
  else if l = ErrorLevel then some "[✘]"
  else if l = NoticeLevel then some "[⚑]"
  else if l = DebugLevel then some "[⧳]"
  else if l = WarnLevel then some "[⚠]"
  else if l = CriticalLevel then some "[‼]"
  else if l = NoLevel then some " "
  else none

/-- `defaultColors` (aurora.go lines 85-94). -/
def defaultColors (l : LogLevel) : Option Color :=
  if l = AlertLevel then some ⟨[FgHiBlue]⟩
  else if l = InfoLevel then some ⟨[FgHiGreen]⟩
  else if l = ErrorLevel then some ⟨[FgHiRed]⟩
  else if l = NoticeLevel then some ⟨[FgHiYellow]⟩
  else if l = DebugLevel then some ⟨[FgHiCyan]⟩
  else if l = WarnLevel then some ⟨[FgHiMagenta]⟩
  else if l = CriticalLevel then some ⟨[FgHiWhite]⟩
  else if l = NoLevel then some ⟨[FgHiBlack]⟩
  else none

/-- `SetSymbol(level, symbol)`: `symbols[level] = symbol` (aurora.go 514-518).
The registry RWMutex `mu` serializes these; with one caller it never blocks,
so it is not represented. -/
def SetSymbol (level : LogLevel) (symbol : String) (st : St) : St :=
  { st with symbols := fun k => if k = level then some symbol else st.symbols k }

/-- `SetColor(level, color)` (aurora.go 504-510). -/
def SetColor (level : LogLevel) (c : Color) (st : St) : St :=
  { st with colors := fun k => if k = level then some c else st.colors k }

/-- `ResetSymbols()` (aurora.go 496-502): `for k, v := range defaultSymbols
\x7b symbols[k] = v \x7d` — it overwrites exactly the keys that occur in
`defaultSymbols` and leaves every other key of `symbols` untouched (Go range
over a map never deletes other entries). -/
def ResetSymbols (st : St) : St :=
  { st with
    symbols := fun k =>
      match defaultSymbols k with
      | some v => some v
      | none => st.symbols k }

/-- `ResetColors()` (aurora.go 486-492), same shape as `ResetSymbols`. -/
def ResetColors (st : St) : St :=
  { st with
    colors := fun k =>
      match defaultColors k with
      | some v => some v
      | none => st.colors k }

/-- The registries as `make(map[...])` leaves them: empty; sink empty, mutex
free. -/
def emptySt : St :=
  { symbols := fun _ => none
    colors := fun _ => none
    out := ""
    locked := false
    now := "2025-06-01 10:30:00 AM" }

/-- The package state after `init()` ran `ResetSymbols(); ResetColors()`
(aurora.go 113-116). -/
def initSt : St := ResetColors (ResetSymbols emptySt)

/-- The `Notifier` (aurora.go 120-124).  Its `output` and `mu` fields are
represented by the shared state `St` (one Notifier family); the Go field
`prefix` is named `pfx` here. -/
structure Notifier where
  pfx : String
deriving DecidableEq, Repr

/-- `New(w)` (aurora.go 129-138): fresh Notifier with empty prefix (the sink
binding lives in `St`). -/
def New : Notifier := { pfx := "" }

/-- `With(prefix)` (aurora.go 335-345): shares sink and mutex, extends the
prefix with `fmt.Sprintf("%s %s", n.prefix, prefix)` — i.e. a single space —
when the parent prefix is non-empty. -/
def Notifier.With (n : Notifier) (p : String) : Notifier :=
  if n.pfx ≠ "" then { pfx := n.pfx ++ " " ++ p } else { pfx := p }

/-- `formatWithPrefix(msg)` (aurora.go 349-354):
`fmt.Sprintf("[%s] %s", n.prefix, msg)` when the prefix is non-empty. -/
def Notifier.formatWithPfx (n : Notifier) (msg : String) : String :=
  if n.pfx ≠ "" then "[" ++ n.pfx ++ "] " ++ msg else msg

/-- `f(args ...any)` (aurora.go 358-364): a `strings.Builder` loop writing
`fmt.Sprint(arg)` for each argument in order. -/
def Notifier.f (n : Notifier) : List GoVal → String
  | [] => ""
  | a :: rest => goSprint a ++ Notifier.f n rest

/-- `n.mu.Lock()`: acquires the family mutex, or blocks forever if this
goroutine already holds it (Go `sync.Mutex` is not reentrant). -/
def lockSt (st : St) : Res :=
  if st.locked then .deadlock st else .ok { st with locked := true }

/-- `colors[level].Fprint(n.output, s)` with `color.NoColor` set: a nil map
entry nil-dereferences in `Color.isNoColorSet` and panics; otherwise the
string is written verbatim.  The caller's deferred `Unlock` is applied by
each operation. -/
def fprint (c : Option Color) (s : String) (st : St) : Res :=
  match c with
  | none => .panicked nilDeref st
  | some _ => .ok { st with out := st.out ++ s }

/-- Releases the family mutex (deferred `n.mu.Unlock()`), also on the panic
path (deferred calls run during unwinding). -/
def unlockRes (r : Res) : Res :=
  match r with
  | .ok st => .ok { st with locked := false }
  | .panicked m st => .panicked m { st with locked := false }
  | .deadlock st => .deadlock st

/-- `Inlinef(level, format, args...)` (aurora.go 249-259): lock; symbol
lookup (Go zero value `""` on a miss); `msg := fmt.Sprintf(format,
args...)`; prefix wrap; `line := fmt.Sprintf("%s %s\n", symbol, msg)`, i.e.
`symbol ++ " " ++ msg ++ "\n"`; write through the level's color; unlock. -/
def Inlinef (n : Notifier) (level : LogLevel) (format : String) (args : List GoVal)
    (st : St) : Res :=
  unlockRes <| (lockSt st).andThen fun st =>
    let symbol := (st.symbols level).getD ""
    let msg := sprintf format args
    let msg := n.formatWithPfx msg
    let line := symbol ++ " " ++ msg ++ "\n"
    fprint (st.colors level) line st

/-- `Logf(level, format, args...)` (aurora.go 273-284): like `Inlinef` but
`line := fmt.Sprintf("%s %s %s\n", symbol, timestamp, msg)` with
`timestamp := time.Now().Format("2006-01-02 03:04:05 PM")` (state field
`now`). -/
def Logf (n : Notifier) (level : LogLevel) (format : String) (args : List GoVal)
    (st : St) : Res :=
  unlockRes <| (lockSt st).andThen fun st =>
    let symbol := (st.symbols level).getD ""
    let msg := sprintf format args
    let msg := n.formatWithPfx msg
    let line := symbol ++ " " ++ st.now ++ " " ++ msg ++ "\n"
    fprint (st.colors level) line st

/-- `Printf(level, format, args...)` (aurora.go 301-310): no symbol, no
timestamp; `line := fmt.Sprintf("%s\n", msg)`. -/
def Printf (n : Notifier) (level : LogLevel) (format : String) (args : List GoVal)
    (st : St) : Res :=
  unlockRes <| (lockSt st).andThen fun st =>
    let msg := sprintf format args
    let msg := n.formatWithPfx msg
    let line := msg ++ "\n"
    fprint (st.colors level) line st

/-- `strings.Repeat(s, count)`: panics on a negative count, else `count`
copies of `s` concatenated. -/
def goRepeat (s : String) : Nat → String
  | 0 => ""
  | k + 1 => s ++ goRepeat s k

def stringsRepeat (s : String) (count : Int) : Except String String :=
  if count < 0 then .error "strings: negative Repeat count"
  else .ok (goRepeat s count.toNat)

/-- `Line(count)` (aurora.go 264-268): lock; writes
`fmt.Sprintf("%s", strings.Repeat("\n", count))` — `fmt.Sprintf("%s", s)` is
`s` for a string — through `colors[NoLevel]`; `strings.Repeat` panics first
when `count` is negative (the deferred unlock still runs). -/
def Line (n : Notifier) (count : Int) (st : St) : Res :=
  unlockRes <| (lockSt st).andThen fun st =>
    match stringsRepeat "\n" count with
    | .error m => .panicked m st
    | .ok s => fprint (st.colors NoLevel) s st

/-- `Func(level, fn)` (aurora.go 188-192): lock; `colors[level].Fprint(
n.output, fn())`; unlock.  `fn` is invoked exactly at this point. -/
def Func (n : Notifier) (level : LogLevel) (fn : Unit → String) (st : St) : Res :=
  unlockRes <| (lockSt st).andThen fun st =>
    fprint (st.colors level) (fn ()) st

/-- `Robot(level)` (aurora.go 315-319): writes
`fmt.Sprintf("%s\n", asciibot.Random())`; the random art block produced by
the external provider is the parameter `art`. -/
def Robot (n : Notifier) (level : LogLevel) (art : String) (st : St) : Res :=
  unlockRes <| (lockSt st).andThen fun st =>
    fprint (st.colors level) (art ++ "\n") st

/-- `If(condition, level, format, args...)` (aurora.go 204-208): calls
`Inlinef` when the condition holds, otherwise the body is never entered. -/
def If (n : Notifier) (condition : Bool) (level : LogLevel) (format : String)
    (args : List GoVal) (st : St) : Res :=
  if condition then Inlinef n level format args st else .ok st

/-- `Panic(f, a...)` (aurora.go 292-296): `msg := fmt.Sprintf(f, a...)`;
`n.Inlinef(CriticalLevel, msg)` — note `msg` becomes the format argument of
`Inlinef`, with no further arguments — then `panic(msg)`. -/
def Panic (n : Notifier) (f : String) (args : List GoVal) (st : St) : Res :=
  let msg := sprintf f args
  (Inlinef n CriticalLevel msg [] st).andThen fun st => .panicked msg st

/-- `Success(format, args...)` (aurora.go 324-326):
`n.Inlinef(InfoLevel, n.f(IconSuccess, " ", format), args...)`. -/
def Success (n : Notifier) (format : String) (args : List GoVal) (st : St) : Res :=
  Inlinef n InfoLevel (n.f [.str IconSuccess, .str " ", .str format]) args st

/-- `Failure(format, args...)` (aurora.go 172-174):
`n.Inlinef(ErrorLevel, n.f(IconError, " ", format), args...)`. -/
def Failure (n : Notifier) (format : String) (args : List GoVal) (st : St) : Res :=
  Inlinef n ErrorLevel (n.f [.str IconError, .str " ", .str format]) args st

/-- JSON string quoting (the keys/values exercised contain no characters
needing escapes). -/
def quoteJson (s : String) : String := "\"" ++ s ++ "\""

/-- Model of the external `jsoncolor.MarshalIndent(v, "", indent)`
collaborator for the value shapes this repository exercises, pinned by the
repository's own tests (aurora_test.go): compact output has no space after
the colon (`"key":"value"`), and with indent `"  "` a one-entry map renders
`\x7b\n  "key":"value"\n\x7d`; an unencodable value (e.g. a channel) yields
an encoding error. -/
def marshalIndent (v : GoVal) (indent : String) : Except String String :=
  match v with
  | .chanv => .error "json: unsupported type: chan int"
  | .str s => .ok (quoteJson s)
  | .int i => .ok (toString i)
  | .jmap [] => .ok "\x7b\x7d"
  | .jmap entries =>
    if indent = "" then
      .ok ("\x7b" ++
        String.intercalate "," (entries.map fun e => quoteJson e.1 ++ ":" ++ quoteJson e.2)
        ++ "\x7d")
    else
      .ok ("\x7b\n" ++
        String.intercalate ",\n"
          (entries.map fun e => indent ++ quoteJson e.1 ++ ":" ++ quoteJson e.2)
        ++ "\n\x7d")

/-- The `for _, v := range values` loop body of `JSONIndent` (aurora.go
234-242), entered with `n.mu` already held: on a marshal error it calls
`n.Logf(ErrorLevel, "failed to marshal JSON: %v", err)`, whose own
`n.mu.Lock()` blocks on the already-held mutex; on success it writes the
encoded bytes and a newline and moves to the next value. -/
def jsonLoop (n : Notifier) (indent : String) : List GoVal → St → Res
  | [], st => .ok st
  | v :: rest, st =>
    match marshalIndent v indent with
    | .error e =>
      (Logf n ErrorLevel "failed to marshal JSON: %v" [.str e] st).andThen fun st =>
        jsonLoop n indent rest st
    | .ok data =>
      jsonLoop n indent rest { st with out := st.out ++ data ++ "\n" }

/-- `JSONIndent(title, indent, values...)` (aurora.go 225-244): when the
title is non-empty, first a Debug-level Inline line `"<title>: JSON ↴↴"`
(its own lock/unlock cycle); then lock, run the marshal loop, write one
trailing newline, unlock.  (The `jsoncolor.NewFormatter()` built at line 232
is never used and has no effect.) -/
def JSONIndent (n : Notifier) (title : String) (indent : String)
    (values : List GoVal) (st : St) : Res :=
  (if title ≠ "" then Inlinef n DebugLevel "%s: JSON ↴↴" [.str title] st
   else .ok st).andThen fun st =>
  unlockRes <| (lockSt st).andThen fun st =>
  (jsonLoop n indent values st).andThen fun st =>
  .ok { st with out := st.out ++ "\n" }

/-- `JSON(values...)` (aurora.go 215-217): `JSONIndent("", IndentNone, ...)`. -/
def JSON (n : Notifier) (values : List GoVal) (st : St) : Res :=
  JSONIndent n "" IndentNone values st

/-- `JSONTitle(title, values...)` (aurora.go 220-222):
`JSONIndent(title, IndentSpace2, ...)`. -/
def JSONTitle (n : Notifier) (title : String) (values : List GoVal) (st : St) : Res :=
  JSONIndent n title IndentSpace2 values st

/-- Does the character list start with the second list? (decidable helper) -/
def chStarts : List Char → List Char → Bool
  | _, [] => true
  | [], _ :: _ => false
  | a :: as, b :: bs => a == b && chStarts as bs

/-- Does the character list contain the second list as a contiguous run? -/
def chContains : List Char → List Char → Bool
  | [], needle => needle.isEmpty
  | hy@(_ :: rest), needle => chStarts hy needle || chContains rest needle

/-- `strings.HasPrefix`-style check on the model's strings. -/
def strStarts (hay needle : String) : Bool := chStarts hay.toList needle.toList

/-- `strings.Contains`-style check on the model's strings. -/
def strContains (hay needle : String) : Bool := chContains hay.toList needle.toList

/-- A sequence of `SetSymbol` calls applied in order. -/
def applySetSymbols : List (LogLevel × String) → St → St
  | [], st => st
  | e :: rest, st => applySetSymbols rest (SetSymbol e.1 e.2 st)

/-- A sequence of `SetColor` calls applied in order. -/
def applySetColors : List (LogLevel × Color) → St → St
  | [], st => st
  | e :: rest, st => applySetColors rest (SetColor e.1 e.2 st)

theorem strAppendNil (s : String) : s ++ "" = s := by
  cases s with
  | mk l => exact congrArg String.mk (List.append_nil l)

theorem strAppendAssoc (a b c : String) : a ++ b ++ c = a ++ (b ++ c) := by
  cases a with
  | mk x =>
    cases b with
    | mk y =>
      cases c with
      | mk z => exact congrArg String.mk (List.append_assoc x y z)

theorem goRepeat_newline (k : Nat) : goRepeat "\n" k = String.mk (List.replicate k '\n') := by
  induction k with
  | zero => rfl
  | succ k ih =>
    show "\n" ++ goRepeat "\n" k = _
    rw [ih]
    rfl

/-- C1: evaluating the structured-output path at a batch whose first value is
unencodable refutes the claimed recover-and-continue behaviour on a
divergence in the code: `JSONIndent` already holds `n.mu` when the marshal
error makes it call `n.Logf`, whose own `n.mu.Lock()` blocks forever (Go
mutexes are not reentrant), so no Error line is emitted, the remaining
encodable value produces no output, and the call never returns. -/
theorem C1_encoding_failure_deadlocks :
    (JSON New [GoVal.chanv, GoVal.jmap [("key", "value")]] initSt).isDeadlock = true
    ∧ Res.outAny (JSON New [GoVal.chanv, GoVal.jmap [("key", "value")]] initSt) = "" := by
  decide

/-- C2 counterexample: the claim says every emit operation completes without
panicking for level values outside the closed enumeration; but `Inlinef` at
level 100 (no entry in the color registry) panics with a nil-pointer
dereference when `colors[level].Fprint` is invoked on the nil map entry. -/
theorem C2_absent_level_panics :
    (Inlinef New 100 "hi" [] initSt).isPanicked = true
    ∧ (Inlinef New 100 "hi" [] initSt).panicMsg = some nilDeref := by
  decide

/-- C2 amended: for every level with an entry in the color registry (in
particular all eight enumeration levels after `init`), the emit operations
Inlinef, Logf, Printf, Func, Robot and Line (non-negative count, NoLevel
color present) complete without panicking, and a missing symbol entry safely
defaults to the empty string; the safe default holds for symbols only — a
level missing from the color registry makes the emit panic. -/
theorem C2_emit_safe_for_registered_colors (level : LogLevel) (st : St)
    (format : String) (args : List GoVal)
    (fn : Unit → String) (art : String) (count : Int)
    (hlock : st.locked = false) (hcol : (st.colors level).isSome = true) :
    (Inlinef New level format args st).isOk = true
    ∧ (Logf New level format args st).isOk = true
    ∧ (Printf New level format args st).isOk = true
    ∧ (Func New level fn st).isOk = true
    ∧ (Robot New level art st).isOk = true
    ∧ ((st.colors NoLevel).isSome = true → 0 ≤ count → (Line New count st).isOk = true)
    ∧ (st.symbols level = none →
        (Inlinef New level format args st).finalOut
          = some (st.out ++ " " ++ sprintf format args ++ "\n")) := by
  cases hc : st.colors level with
  | none => rw [hc] at hcol; simp at hcol
  | some c =>
    refine ⟨?_, ?_, ?_, ?_, ?_, ?_, ?_⟩
    · simp [Inlinef, lockSt, hlock, Res.andThen, unlockRes, fprint, hc, Res.isOk]
    · simp [Logf, lockSt, hlock, Res.andThen, unlockRes, fprint, hc, Res.isOk]
    · simp [Printf, lockSt, hlock, Res.andThen, unlockRes, fprint, hc, Res.isOk]
    · simp [Func, lockSt, hlock, Res.andThen, unlockRes, fprint, hc, Res.isOk]
    · simp [Robot, lockSt, hlock, Res.andThen, unlockRes, fprint, hc, Res.isOk]
    · intro hno hge
      have hneg : ¬ count < 0 := not_lt.mpr hge
      cases hcn : st.colors NoLevel with
      | none => rw [hcn] at hno; simp at hno
      | some c2 =>
        simp [Line, lockSt, hlock, Res.andThen, unlockRes, stringsRepeat, hneg,
          fprint, hcn, Res.isOk]
    · intro hsymn
      simp [Inlinef, lockSt, hlock, Res.andThen, unlockRes, Notifier.formatWithPfx,
        hsymn, hc, fprint, Res.finalOut, New, strAppendAssoc]

/-- C2 witness: after `SetColor(100, ...)`, level 100 (still absent from the
symbol registry) emits without panicking, with the empty-symbol default. -/
theorem C2_emit_safe_for_registered_colors_witness :
    (Inlinef New 100 "hi" [] (SetColor 100 ⟨[FgHiWhite]⟩ initSt)).isOk = true
    ∧ (Line New 0 (SetColor 100 ⟨[FgHiWhite]⟩ initSt)).isOk = true
    ∧ (Inlinef New 100 "hi" [] (SetColor 100 ⟨[FgHiWhite]⟩ initSt)).finalOut
        = some " hi\n" := by
  have h := C2_emit_safe_for_registered_colors 100 (SetColor 100 ⟨[FgHiWhite]⟩ initSt)
    "hi" [] (fun _ => "lazy") "robot" 0 rfl (by decide)
  refine ⟨h.1, h.2.2.2.2.2.1 (by decide) (by decide), ?_⟩
  rw [h.2.2.2.2.2.2 (by decide)]
  decide

/-- C3 counterexample: the claim says that after any `SetSymbol` calls a
single `ResetSymbols` makes every lookup yield the built-in default (or the
empty fallback for levels with no built-in entry); but after
`SetSymbol(100, "X")` and `ResetSymbols()` the lookup for level 100 still
yields `"X"`, because the reset loop only overwrites the keys present in
`defaultSymbols` and never deletes other entries. -/
theorem C3_reset_keeps_custom_level :
    ¬ (((ResetSymbols (SetSymbol 100 "X" initSt)).symbols 100).getD "" = "") := by
  decide

/-- C3 amended: after any sequence of `SetSymbol` calls, `ResetSymbols`
restores the built-in default symbol for every level that has a built-in
entry (all eight enumeration levels), discarding customization there; for a
level with no built-in entry the customized entry persists unchanged.
Likewise for `SetColor`/`ResetColors`. -/
theorem C3_reset_restores_builtins (sets : List (LogLevel × String))
    (csets : List (LogLevel × Color)) (st : St) (l : LogLevel) :
    (∀ d, defaultSymbols l = some d →
      (ResetSymbols (applySetSymbols sets st)).symbols l = some d)
    ∧ (defaultSymbols l = none →
      (ResetSymbols (applySetSymbols sets st)).symbols l
        = (applySetSymbols sets st).symbols l)
    ∧ (∀ c, defaultColors l = some c →
      (ResetColors (applySetColors csets st)).colors l = some c)
    ∧ (defaultColors l = none →
      (ResetColors (applySetColors csets st)).colors l
        = (applySetColors csets st).colors l) := by
  refine ⟨fun d hd => ?_, fun hn => ?_, fun c hc => ?_, fun hn => ?_⟩
  · simp [ResetSymbols, hd]
  · simp [ResetSymbols, hn]
  · simp [ResetColors, hc]
  · simp [ResetColors, hn]

/-- C3 witness: `ResetSymbols` after `SetSymbol(InfoLevel, "Z")` and
`SetSymbol(100, "X")` restores the built-in Info symbol, while the level-100
entry is left as the set sequence made it. -/
theorem C3_reset_restores_builtins_witness :
    (ResetSymbols (applySetSymbols [(InfoLevel, "Z"), (100, "X")] initSt)).symbols InfoLevel
      = some "[✔]"
    ∧ (ResetSymbols (applySetSymbols [(InfoLevel, "Z"), (100, "X")] initSt)).symbols 100
        = (applySetSymbols [(InfoLevel, "Z"), (100, "X")] initSt).symbols 100 :=
  ⟨(C3_reset_restores_builtins [(InfoLevel, "Z"), (100, "X")] [] initSt InfoLevel).1
      "[✔]" (by decide),
   (C3_reset_restores_builtins [(InfoLevel, "Z"), (100, "X")] [] initSt 100).2.1
      (by decide)⟩

/-- C4: for every level with a registered symbol and style, an `Inlinef`
emission appends exactly `symbol ++ " " ++ message ++ "\n"` to the sink when
the Notifier's prefix is empty, and exactly
`symbol ++ " [" ++ prefix ++ "] " ++ message ++ "\n"` when it is non-empty,
where the message is the printf-style substitution of the arguments into the
format template (colorization aside: colour output disabled). -/
theorem C4_inline_shape (st : St) (level : LogLevel) (sym : String) (c : Color)
    (p format : String) (args : List GoVal)
    (hlock : st.locked = false) (hsym : st.symbols level = some sym)
    (hcol : st.colors level = some c) :
    (Inlinef { pfx := "" } level format args st).finalOut
      = some (st.out ++ sym ++ " " ++ sprintf format args ++ "\n")
    ∧ (p ≠ "" →
      (Inlinef { pfx := p } level format args st).finalOut
        = some (st.out ++ sym ++ " [" ++ p ++ "] " ++ sprintf format args ++ "\n")) := by
  constructor
  · simp [Inlinef, lockSt, hlock, Res.andThen, unlockRes, Notifier.formatWithPfx,
      hsym, hcol, fprint, Res.finalOut, strAppendAssoc]
  · intro hp
    simp [Inlinef, lockSt, hlock, Res.andThen, unlockRes, Notifier.formatWithPfx, hp,
      hsym, hcol, fprint, Res.finalOut, strAppendAssoc]
    rfl

/-- C4 witness: the Inline shape at Info level on the freshly initialized
registry, without and with a prefix. -/
theorem C4_inline_shape_witness :
    (Inlinef { pfx := "" } InfoLevel "hi" [] initSt).finalOut = some "[✔] hi\n"
    ∧ (Inlinef { pfx := "db" } InfoLevel "hi" [] initSt).finalOut
        = some "[✔] [db] hi\n" := by
  have h := C4_inline_shape initSt InfoLevel "[✔]" ⟨[FgHiGreen]⟩ "db" "hi" [] rfl
    (by decide) (by decide)
  exact ⟨by rw [h.1]; decide, by rw [h.2 (by decide)]; decide⟩

/-- C5: `With(childPrefix)` yields prefix `parent ++ " " ++ child` when the
parent prefix is non-empty and `child` otherwise; chaining `With "a"` then
`With "b"` on a fresh Notifier gives effective prefix `"a b"`, and an
emission through the twice-derived Notifier renders `"[a b] <msg>"`. -/
theorem C5_with_chaining (n : Notifier) (p : String) :
    (n.With p).pfx = (if n.pfx ≠ "" then n.pfx ++ " " ++ p else p)
    ∧ ((New.With "a").With "b").pfx = "a b"
    ∧ (Inlinef ((New.With "a").With "b") InfoLevel "msg" [] initSt).finalOut
        = some "[✔] [a b] msg\n" := by
  refine ⟨?_, by decide, by decide⟩
  by_cases h : n.pfx = "" <;> simp [Notifier.With, h]

/-- C6: the guarded emit `If` with condition false returns with the state
(sink bytes, lock, registries) completely unchanged — in particular zero
bytes are written, the printf-style substitution is never performed and the
lock is never acquired — and with condition true it is exactly the Inline
emission at that level. -/
theorem C6_guarded_emit (n : Notifier) (level : LogLevel) (format : String)
    (args : List GoVal) (st : St) :
    If n false level format args st = Res.ok st
    ∧ (If n false level format args st).finalOut = some st.out
    ∧ If n true level format args st = Inlinef n level format args st :=
  ⟨rfl, rfl, rfl⟩

/-- C7: evaluating `Panic` at the failing input `Panic("50%%")`: the
formatted message is `"50%"`, and the abort carries `"50%"`, but the sink
line reads `"[‼] 50%!(NOVERB)\n"` — `Panic` hands the formatted message back
to `Inlinef` as a new format template, whose second substitution mangles the
lone `%` — so the message written to the sink and the message carried by the
abort are not identical, contrary to the claim (and to the code's own
comment "panics with the same message"). -/
theorem C7_panic_message_divergence :
    (Panic New "50%%" [] initSt).panicMsg = some "50%"
    ∧ (Panic New "50%%" [] initSt).panicOut = some "[‼] 50%!(NOVERB)\n"
    ∧ (Panic New "50%%" [] initSt).panicOut ≠ some ("[‼] " ++ "50%" ++ "\n") := by
  refine ⟨by decide, by decide, by decide⟩

/-- C8: `Success` is exactly `Inlinef` at Info level with the glyph `"✓"`
plus a space concatenated onto the front of the format template before
substitution, and `Failure` is exactly `Inlinef` at Error level with `"✗"`
prepended the same way; on the default registry they render under the Info
and Error decorations respectively. -/
theorem C8_success_failure_alias (n : Notifier) (format : String)
    (args : List GoVal) (st : St) :
    Success n format args st = Inlinef n InfoLevel ("✓" ++ " " ++ format) args st
    ∧ Failure n format args st = Inlinef n ErrorLevel ("✗" ++ " " ++ format) args st
    ∧ (Success New "x" [] initSt).finalOut = some "[✔] ✓ x\n"
    ∧ (Failure New "x" [] initSt).finalOut = some "[✘] ✗ x\n" := by
  have h1 : Notifier.f n [.str IconSuccess, .str " ", .str format]
      = "✓" ++ " " ++ format := by
    show "✓" ++ (" " ++ (format ++ "")) = "✓" ++ " " ++ format
    rw [strAppendNil, strAppendAssoc]
  have h2 : Notifier.f n [.str IconError, .str " ", .str format]
      = "✗" ++ " " ++ format := by
    show "✗" ++ (" " ++ (format ++ "")) = "✗" ++ " " ++ format
    rw [strAppendNil, strAppendAssoc]
  refine ⟨?_, ?_, by decide, by decide⟩
  · show Inlinef n InfoLevel (Notifier.f n [.str IconSuccess, .str " ", .str format])
        args st = _
    rw [h1]
  · show Inlinef n ErrorLevel (Notifier.f n [.str IconError, .str " ", .str format])
        args st = _
    rw [h2]

/-- C9: structured output of the single value with key `"key"` and value
`"value"`, with no title and no indentation, contains the exact compact
substring between quotes `"key":"value"`; with title `"Test Data"` and
two-space indentation the output begins with the line
`"[⧳] Test Data: JSON ↴↴\n"` followed by a block whose nesting is indented
by two spaces. -/
theorem C9_structured_output :
    strContains (Res.outAny (JSON New [GoVal.jmap [("key", "value")]] initSt))
      "\"key\":\"value\"" = true
    ∧ strStarts
        (Res.outAny (JSONIndent New "Test Data" "  " [GoVal.jmap [("key", "value")]] initSt))
        "[⧳] Test Data: JSON ↴↴\n" = true
    ∧ strContains
        (Res.outAny (JSONIndent New "Test Data" "  " [GoVal.jmap [("key", "value")]] initSt))
        "\x7b\n  \"key\":\"value\"\n\x7d" = true := by
  decide

/-- C10: `Line(count)` is total only for non-negative counts: for every
count ≥ 0 it writes exactly `count` newline characters (no prefix, no
symbol) and returns normally, while for every negative count it panics (in
`strings.Repeat`) before writing anything. -/
theorem C10_line_totality (count : Int) (st : St) (hlock : st.locked = false) :
    ((st.colors NoLevel).isSome = true → 0 ≤ count →
      (Line New count st).finalOut
        = some (st.out ++ String.mk (List.replicate count.toNat '\n')))
    ∧ (count < 0 → (Line New count st).isPanicked = true
        ∧ (Line New count st).panicOut = some st.out) := by
  constructor
  · intro hc hge
    have hneg : ¬ count < 0 := not_lt.mpr hge
    cases hcol : st.colors NoLevel with
    | none => rw [hcol] at hc; simp at hc
    | some c =>
      simp [Line, lockSt, hlock, Res.andThen, unlockRes, stringsRepeat, hneg,
        fprint, hcol, Res.finalOut, goRepeat_newline]
  · intro hneg
    refine ⟨?_, ?_⟩
    · simp [Line, lockSt, hlock, Res.andThen, unlockRes, stringsRepeat, hneg,
        Res.isPanicked]
    · simp [Line, lockSt, hlock, Res.andThen, unlockRes, stringsRepeat, hneg,
        Res.panicOut]

/-- C10 witness: `Line(2)` writes two newlines; `Line(-1)` panics having
written nothing. -/
theorem C10_line_totality_witness :
    (Line New 2 initSt).finalOut = some "\n\n"
    ∧ (Line New (-1) initSt).isPanicked = true
    ∧ (Line New (-1) initSt).panicOut = some "" := by
  refine ⟨?_, ((C10_line_totality (-1) initSt rfl).2 (by decide)).1,
    by rw [((C10_line_totality (-1) initSt rfl).2 (by decide)).2]; decide⟩
  rw [(C10_line_totality 2 initSt rfl).1 (by decide) (by decide)]
  decide
